import Mathlib

/-!
Shallow embedding of the Fastcite backend core (src/src/celery_app/tasks.py)
together with the spec-level pieces that live in the missing helper module.
Definitions mirror the source; theorems settle the frozen claims about it.
-/

deriving instance DecidableEq for Except

namespace Fastcite

/-! ## Metadata store (MongoDB `books_collection`) model

A `Book` mirrors the registry document created in `process_pdf_task`
(tasks.py lines 95-104).  `mongoId` models the storage-native `_id`;
`id` models the application-level UUID field, absent on old records
(the migration branch at lines 70-73 reads records without `"id"`).
The `uploaded_at` timestamp is not modeled (real time). -/

structure Book where
  mongoId : Nat
  id : Option String
  title : String
  author_name : String
  pages : Nat
  status : String
  uploaded_by : List String
deriving DecidableEq

/-- The query filters the tasks use against `books_collection`. -/
inductive MongoFilter
  | byTitle (t : String)
  | byAppId (i : String)
  | byMongoId (n : Nat)
deriving DecidableEq

def MongoFilter.test : MongoFilter → Book → Bool
  | .byTitle t, b => b.title == t
  | .byAppId i, b => b.id == some i
  | .byMongoId n, b => b.mongoId == n

/-- The update documents the tasks pass to `update_one`.  `plainId` models
the document `{"id": book_id}`, whose single top-level key is not a `$`
update operator. -/
inductive UpdateArg
  | plainId (v : String)
  | setStatus (s : String)
  | setId (i : String)
  | addToSetUploadedBy (u : String)
  | pullUploadedBy (u : String)
deriving DecidableEq

/-- PyMongo accepts an update document only when its top-level keys are
`$` update operators (`validate_ok_for_update`); otherwise `update_one`
raises `ValueError` client-side, before any server round-trip. -/
def UpdateArg.isOperatorDoc : UpdateArg → Bool
  | .plainId _ => false
  | _ => true

def UpdateArg.applyTo : UpdateArg → Book → Book
  | .plainId _, b => b
  | .setStatus s, b => { b with status := s }
  | .setId i, b => { b with id := some i }
  | .addToSetUploadedBy u, b =>
      if u ∈ b.uploaded_by then b else { b with uploaded_by := b.uploaded_by ++ [u] }
  | .pullUploadedBy u, b => { b with uploaded_by := b.uploaded_by.filter (fun x => x ≠ u) }

/-- Mongo `find_one`: first document matching the filter. -/
def find_one (db : List Book) (f : MongoFilter) : Option Book :=
  db.find? f.test

/-- Apply an update to the first matching document. -/
def updateFirst (db : List Book) (f : MongoFilter) (u : UpdateArg) : List Book :=
  match db with
  | [] => []
  | b :: bs => if f.test b then u.applyTo b :: bs else b :: updateFirst bs f u

/-- Errors surfaced by the metadata-store driver. -/
inductive DbError
  | updateNeedsOperators
deriving DecidableEq

/-- Mongo `update_one(filter, update, upsert)`.  The third positional
parameter of PyMongo's `update_one` is `upsert`; several call sites in
tasks.py pass the filter document twice, so the `$`-operator document
lands in the `upsert` slot and the actual `update` argument is the plain
`{"id": book_id}` document, which the driver rejects with
`ValueError: update only works with $ operators`. -/
def update_one (db : List Book) (f : MongoFilter) (u : UpdateArg) (upsert : Option UpdateArg) :
    Except DbError (List Book) :=
  if u.isOperatorDoc then .ok (updateFirst db f u) else .error .updateNeedsOperators

/-- Mongo `delete_one`: remove the first matching document. -/
def deleteFirst (db : List Book) (f : MongoFilter) : List Book :=
  match db with
  | [] => []
  | b :: bs => if f.test b then bs else b :: deleteFirst bs f

/-! ## Ambient state and effect trace -/

/-- Outline entry as returned by `doc.get_toc()`. -/
structure TocEntry where
  level : Nat
  title : String
  page : Nat
deriving DecidableEq

/-- What `fitz.open` + `extract_metadata` expose of a PDF on disk.
Modelled from the spec: the document parser collaborator returns
`{outline, total_pages, title, author}` (spec section 6); `extract_metadata`
itself is in the helper module absent from src. -/
structure ParsedDoc where
  toc : List TocEntry
  title : String
  author_name : String
  page_count : Nat
deriving DecidableEq

/-- The ambient state the tasks touch: the three global clients, the
filesystem, the Qdrant collection list and the Mongo registry, plus a
counter supplying fresh UUID strings. -/
structure World where
  clientsInit : Bool
  fs : List (String × ParsedDoc)
  collections : List String
  books : List Book
  uuidCounter : Nat
deriving DecidableEq

def freshUuid (n : Nat) : String := "uuid-" ++ toString n

/-- Observable effects against the backing stores and the task queue. -/
inductive Eff
  | qdrantGetCollections
  | qdrantCreateCollection (name : String)
  | mongoFindOne (f : MongoFilter)
  | mongoUpdateOne (f : MongoFilter) (u : UpdateArg)
  | mongoInsertOne (b : Book)
  | mongoDeleteOne (f : MongoFilter)
  | dispatchVectorPurge (book_id : String)
  | dispatchAssetPurge (book_id : String)
deriving DecidableEq

/-- Exceptions the embedded tasks can raise.  `attributeError` models
the `AttributeError` raised when `.delay` is looked up on a plain
function: tasks.py line 203 redefines `delete_qdrant_chunks_task` at
module level *without* the `@celery_app.task` decorator, so that name is
rebound to an undecorated function that has no `.delay` attribute. -/
inductive TaskError
  | environmentError
  | fileNotFound (p : String)
  | noOutline
  | attributeError
  | db (e : DbError)
deriving DecidableEq

/-! ## `process_pdf_task` (tasks.py lines 19-105)

The embedding covers the task up to and including the registry branch
(Step 0 through Step 3).  The `existing` branch returns there, exactly
as the source does; the new-book branch continues into the chunking
pipeline (Steps 4-7), whose stages are modeled separately below
(`process_node`, `executorMap`). -/

inductive IngestOutcome
  | existing (book_id title author_name : String) (chunks : Nat)
  | newBookPipeline (book_id : String)
deriving DecidableEq

def process_pdf_task (w : World) (pdf_path user_id : String) :
    Except TaskError IngestOutcome × World × List Eff :=
  -- line 24: all three global clients must be initialized
  if w.clientsInit then
    -- line 27: os.path.exists check, before any store access
    match w.fs.find? (fun p => p.1 == pdf_path) with
    | none => (.error (.fileNotFound pdf_path), w, [])
    | some (_, doc) =>
      -- lines 43-52: get_collections (twice, lines 43-44), create if absent
      let tr0 : List Eff := [.qdrantGetCollections, .qdrantGetCollections]
      let st1 :=
        if "pdf_chunks" ∈ w.collections then (w, tr0)
        else ({ w with collections := w.collections ++ ["pdf_chunks"] },
              tr0 ++ [.qdrantCreateCollection "pdf_chunks"])
      let w1 := st1.1
      let tr1 := st1.2
      -- lines 55-58: open the PDF; empty TOC raises ValueError
      if doc.toc = [] then (.error .noOutline, w1, tr1)
      else
        let title := doc.title
        let author_name := doc.author_name
        -- line 64: find_one({"title": title})
        let tr2 := tr1 ++ [.mongoFindOne (.byTitle title)]
        match find_one w1.books (.byTitle title) with
        | some existing_book =>
          -- lines 70-76: migrate records lacking the UUID "id" field
          let st2 : String × World × List Eff :=
            match existing_book.id with
            | none =>
              let bid := freshUuid w1.uuidCounter
              (bid,
               { w1 with
                   books := updateFirst w1.books (.byMongoId existing_book.mongoId) (.setId bid),
                   uuidCounter := w1.uuidCounter + 1 },
               tr2 ++ [.mongoUpdateOne (.byMongoId existing_book.mongoId) (.setId bid)])
            | some bid => (bid, w1, tr2)
          let book_id := st2.1
          let w2 := st2.2.1
          let tr3 := st2.2.2
          -- lines 78-83: add the uploader; the source passes the filter
          -- document a second time, so `update` = {"id": book_id} and the
          -- $addToSet document lands in the upsert position
          if user_id ∈ existing_book.uploaded_by then
            (.ok (.existing book_id title author_name 0), w2, tr3)
          else
            match update_one w2.books (.byAppId book_id) (.plainId book_id)
                (some (.addToSetUploadedBy user_id)) with
            | .error e => (.error (.db e), w2, tr3)
            | .ok books2 =>
              (.ok (.existing book_id title author_name 0),
               { w2 with books := books2 },
               tr3 ++ [.mongoUpdateOne (.byAppId book_id) (.plainId book_id)])
        | none =>
          -- lines 93-105: insert the new record and continue the pipeline
          let book_id := freshUuid w1.uuidCounter
          let nb : Book :=
            { mongoId := w1.uuidCounter
              id := some book_id
              title := title
              author_name := author_name
              pages := doc.page_count
              status := "processing"
              uploaded_by := [user_id] }
          (.ok (.newBookPipeline book_id),
           { w1 with books := w1.books ++ [nb], uuidCounter := w1.uuidCounter + 1 },
           tr2 ++ [.mongoInsertOne nb])
  else (.error .environmentError, w, [])

/-! ## `delete_book_task` (tasks.py lines 269-303) -/

inductive DeleteOutcome
  | not_found
  | user_removed_only (book_id : String)
  | fully_deleted (book_id : String)
deriving DecidableEq

def delete_book_task (w : World) (book_id user_id : String) :
    Except TaskError DeleteOutcome × World × List Eff :=
  -- lines 273-274: find_one({"id": book_id}) executed twice
  let tr0 : List Eff := [.mongoFindOne (.byAppId book_id), .mongoFindOne (.byAppId book_id)]
  match find_one w.books (.byAppId book_id) with
  | none => (.ok .not_found, w, tr0)
  | some book =>
    if book.uploaded_by.length > 1 then
      -- lines 280-284: the filter document is passed twice, so the $pull
      -- document lands in the upsert position and the driver rejects the
      -- plain update document
      match update_one w.books (.byAppId book_id) (.plainId book_id)
          (some (.pullUploadedBy user_id)) with
      | .error e => (.error (.db e), w, tr0)
      | .ok books2 =>
        (.ok (.user_removed_only book_id), { w with books := books2 },
         tr0 ++ [.mongoUpdateOne (.byAppId book_id) (.plainId book_id)])
    else
      -- line 289: delete_one removes the registry record synchronously.
      -- line 293: delete_qdrant_chunks_task.delay(book_id) — but the
      -- module-level name was rebound at line 203 to an undecorated
      -- plain function, so the attribute lookup `.delay` raises
      -- AttributeError here: no purge job is ever dispatched, the
      -- second delete_one (line 294) and delete_b2_pdfs_task.delay
      -- (line 299) are never reached, and 'fully_deleted' is never
      -- returned
      let w1 := { w with books := deleteFirst w.books (.byAppId book_id) }
      (.error .attributeError, w1,
       tr0 ++ [.mongoDeleteOne (.byAppId book_id)])

/-! ## Outline leaves and the chunk-extraction stage
(tasks.py lines 112-138)

`build_toc_tree` / `collect_leaf_nodes` live in the helper module absent
from src; a leaf node carries the fields `process_node` reads
(`node["title"]`, `node["path"]`, `node["page"]`), per the spec's
LeafSection / OutlineNode data model. -/

structure LeafNode where
  title : String
  path : List String
  page : Nat
deriving DecidableEq

/-- Line 120: `end_page = leaf_nodes[i + 1]["page"] if i + 1 < len(leaf_nodes)
else doc.page_count + 1`.  This is the leaf's exclusive end page. -/
def end_page_exclusive (leaf_nodes : List LeafNode) (page_count : Nat) (i : Nat) : Nat :=
  match leaf_nodes.get? (i + 1) with
  | some nxt => nxt.page
  | none => page_count + 1

/-- The dict returned by `process_node` (lines 125-133). -/
structure Chunk where
  title : String
  path : String
  start_page : Nat
  end_page : Nat
  local_path : String
  filename : String
  text : String
deriving DecidableEq

/-- The truthiness test `not text.strip()` (line 122): a string strips
to empty exactly when every character is whitespace. -/
def isBlank (s : String) : Bool :=
  s.toList.all (fun c => c.isWhitespace)

/-- The per-item body `process_node` (lines 117-133).  `extract_text` and
`save_mini` stand for the fallible helper calls `extract_text_for_node`
and `save_mini_pdf` (helper module absent from src); each receives the
page range and may raise.  An item whose extracted text is empty or
whitespace-only is dropped by returning `none`. -/
def process_node (leaf_nodes : List LeafNode) (page_count : Nat)
    (extract_text : Nat → Nat → Except String String)
    (save_mini : Nat → Nat → Except String (String × String))
    (i : Nat) : Except String (Option Chunk) :=
  match leaf_nodes.get? i with
  | none => .ok none
  | some node =>
    let start_page := node.page
    let end_page := end_page_exclusive leaf_nodes page_count i
    match extract_text start_page end_page with
    | .error e => .error e
    | .ok text =>
      if isBlank text then .ok none
      else
        match save_mini start_page end_page with
        | .error e => .error e
        | .ok lp =>
          .ok (some { title := node.title
                      path := String.intercalate " > " node.path
                      start_page := start_page
                      end_page := end_page - 1
                      local_path := lp.1
                      filename := lp.2
                      text := text })

/-- The fan-out collection loop (lines 135-138):
`for result in executor.map(process_node, range(len(leaf_nodes)))` appends
each truthy result in index order.  `executor.map` re-raises a worker's
exception at the point its slot is consumed, so the first failing index
aborts the iteration and the exception propagates out of the task. -/
def executorMap (f : Nat → Except String (Option Chunk)) :
    List Nat → Except String (List Chunk)
  | [] => .ok []
  | i :: is =>
    match f i with
    | .error e => .error e
    | .ok none => executorMap f is
    | .ok (some c) => (executorMap f is).map (fun cs => c :: cs)

/-- Step 4's extraction stage over all leaves. -/
def extraction_stage (leaf_nodes : List LeafNode) (page_count : Nat)
    (extract_text : Nat → Nat → Except String String)
    (save_mini : Nat → Nat → Except String (String × String)) :
    Except String (List Chunk) :=
  executorMap (process_node leaf_nodes page_count extract_text save_mini)
    (List.range leaf_nodes.length)

/-! ## `search_similar_in_books_task` (tasks.py lines 309-321) -/

/-- A search result dict; `score` is `none` when the key is missing or
its value is null.  Scores are modeled as rationals. -/
structure SearchHit where
  id : Nat
  score : Option ℚ
deriving DecidableEq

/-- Line 320's sort key: `x.get('score', 0) or 0` — a missing or null
(or zero) score becomes 0. -/
def sortKey (h : SearchHit) : ℚ := h.score.getD 0

/-- Stable descending insertion: `x` is placed before the first element
whose key is not greater than `x`'s, so among equal keys the
earlier-arriving element stays first. -/
def insertDesc (x : SearchHit) : List SearchHit → List SearchHit
  | [] => [x]
  | y :: ys => if sortKey y ≤ sortKey x then x :: y :: ys else y :: insertDesc x ys

/-- Model of Python's `list.sort(key=..., reverse=True)`, which is a
stable descending sort; realized as stable insertion sort.  The
characterizing properties (permutation, descending pairwise order, tie
stability) are proved below, pinning the model to Python's documented
sort contract. -/
def sortDesc : List SearchHit → List SearchHit
  | [] => []
  | x :: xs => insertDesc x (sortDesc xs)

/-- Lines 310-321: `all_results = []`; the backend call
(`search_similar_in_book`, helper module absent from src) either returns
a result list or raises — any exception is swallowed, leaving
`all_results = []`; then the stable descending sort runs. -/
def search_similar_in_books_task (backend : Except String (List SearchHit)) :
    List SearchHit :=
  let all_results := match backend with
    | .error _ => []
    | .ok rs => rs
  sortDesc all_results

/-! ## `select_top_contexts_task` (tasks.py lines 324-365) and the
pipeline `process_contexts_and_generate_task` (lines 386-408) -/

/-!
JSON values, for the generation collaborator's parsed reply.  Arrays and
objects are given by the mutually defined list types `JArr` and `JObj`.
-/

mutual

inductive JValue
  | null
  | jbool (b : Bool)
  | jnum (q : ℚ)
  | jstr (s : String)
  | jarr (elems : JArr)
  | jobj (fields : JObj)

inductive JArr
  | nil
  | cons (hd : JValue) (tl : JArr)

inductive JObj
  | nil
  | cons (key : String) (val : JValue) (tl : JObj)

end

deriving instance DecidableEq for JValue, JArr, JObj

def JArr.toList : JArr → List JValue
  | .nil => []
  | .cons x tl => x :: tl.toList

/-- A context candidate dict; each field is `none` when the key is
absent (the code reads them with `.get`). -/
structure Ctx where
  id : Option JValue
  heading : Option String
  content : Option String
deriving DecidableEq

/-- Python `dict.get` on a parsed JSON object. -/
def jobjGet : JObj → String → Option JValue
  | .nil, _ => none
  | .cons key v tl, k => if key == k then some v else jobjGet tl k

/-- Line 365's fallback: `[c.get('id') for c in contexts[:3]]`. -/
def fallback_first3 (contexts : List Ctx) : List JValue :=
  (contexts.take 3).map (fun c => c.id.getD .null)

/-- Lines 348-365.  `reply` is the generation call's outcome: outer
error = `generate_content` raised; inner error = `json.loads` raised on
the fence-stripped text; inner ok = the parsed JSON value.  On the parsed
value the code runs `parsed.get("selected_ids", [])` (an `AttributeError`
on a non-object, a `TypeError` from `len` on a non-sequence value — both
caught by the `except`, like every other exception, yielding the
first-3 fallback) and returns at most the first 3 ids.  A JSON object
*without* the key yields the `.get` default `[]`, so the empty list is
returned with no exception raised.  One branch is approximated: a JSON
*string* value for selected_ids would survive Python's `len`/slicing and
be returned as a string, which this List-typed model instead sends to
the fallback; no claim or theorem touches that branch. -/
def select_top_contexts_task (contexts : List Ctx)
    (reply : Except String (Except String JValue)) : List JValue :=
  match reply with
  | .error _ => fallback_first3 contexts
  | .ok (.error _) => fallback_first3 contexts
  | .ok (.ok parsed) =>
    match parsed with
    | .jobj fields =>
      match jobjGet fields "selected_ids" with
      | none => []
      | some (.jarr xs) => xs.toList.take 3
      | some _ => fallback_first3 contexts
    | _ => fallback_first3 contexts

/-- The record assembled by `process_contexts_and_generate_task`, plus
the arguments it hands to the selection stage:  `selection_input` and
`selection_query` are the two arguments passed to
`select_top_contexts_task` at line 392, and `selection_contexts_var` is
the value bound (and never used) at line 391. -/
structure PipelineRun where
  selection_contexts_var : List Ctx
  selection_input : List Ctx
  selection_query : String
  selected_ids : List JValue
  selected_contexts : List Ctx
  answer : String
deriving DecidableEq

/-- Lines 386-408.  `selectReply` is the selection stage's generation
outcome (as in `select_top_contexts_task`); `genReply` is the answer
synthesis call's outcome (`call_model_task`, lines 368-383: on failure
the answer degrades to an error string). -/
def process_contexts_and_generate_task (contexts : List Ctx) (user_query : String)
    (selectReply : Except String (Except String JValue))
    (genReply : Except String String) : PipelineRun :=
  -- line 391: selection_contexts = contexts[:10]
  let selection_contexts := contexts.take 10
  -- line 392: select_top_contexts_task(contexts, user_query)
  let selected_ids := select_top_contexts_task contexts selectReply
  -- line 393: [c for c in contexts if c.get('id') in selected_ids]
  let selected_contexts := contexts.filter (fun c => selected_ids.contains (c.id.getD .null))
  let answer := match genReply with
    | .ok t => t.trim
    | .error e => "Error: " ++ e
  { selection_contexts_var := selection_contexts
    selection_input := contexts
    selection_query := user_query
    selected_ids := selected_ids
    selected_contexts := selected_contexts
    answer := answer }

/-! ## Concrete instances used when evaluating the claims -/

def bookSolo : Book := ⟨1, some "b1", "T", "A", 10, "complete", ["u1"]⟩

def wSolo : World := ⟨true, [], ["pdf_chunks"], [bookSolo], 0⟩

def bookShared : Book := ⟨1, some "b1", "T", "A", 10, "complete", ["u1", "u2"]⟩

def wShared : World := ⟨true, [], ["pdf_chunks"], [bookShared], 0⟩

def docIntro : ParsedDoc := ⟨[⟨1, "Ch1", 1⟩], "Intro", "Auth", 100⟩

def bookIntro : Book := ⟨1, some "b1", "Intro", "Auth", 100, "complete", ["u1"]⟩

def wIntro : World := ⟨true, [("doc.pdf", docIntro)], ["pdf_chunks"], [bookIntro], 0⟩

def docNoToc : ParsedDoc := ⟨[], "T", "A", 50⟩

def wNoToc : World := ⟨true, [("b.pdf", docNoToc)], [], [], 0⟩

def mkCtx (s : String) : Ctx := ⟨some (.jstr s), none, none⟩

def cs4 : List Ctx := [mkCtx "a", mkCtx "b", mkCtx "c", mkCtx "d"]

def objMissingKey : JObj := .cons "answer" .null .nil

def cs11 : List Ctx :=
  [mkCtx "c1", mkCtx "c2", mkCtx "c3", mkCtx "c4", mkCtx "c5", mkCtx "c6",
   mkCtx "c7", mkCtx "c8", mkCtx "c9", mkCtx "c10", mkCtx "c11"]

def run11 : PipelineRun :=
  process_contexts_and_generate_task cs11 "q" (.error "down") (.ok "ans")

def leavesTwo : List LeafNode := [⟨"A.1", ["A", "A.1"], 2⟩, ⟨"B", ["B"], 5⟩]

/-- An extractor that raises on the first leaf (whose range starts at
page 2) and succeeds elsewhere. -/
def extractFail0 : Nat → Nat → Except String String :=
  fun s _ => if s = 2 then .error "malformed page" else .ok "body"

def saveOk : Nat → Nat → Except String (String × String) :=
  fun _ _ => .ok ("p", "f")

def chunkW : Chunk := ⟨"t", "t", 1, 2, "p", "f", "x"⟩

def gW : Nat → Option Chunk := fun i => if i = 0 then some chunkW else none

def fFailW : Nat → Except String (Option Chunk) :=
  fun i => if i = 2 then .error "io" else .ok (gW i)

/-! ## Lemmas about the stable descending sort (for C4) -/

theorem insertDesc_perm (x : SearchHit) (l : List SearchHit) :
    (insertDesc x l).Perm (x :: l) := by
  induction l with
  | nil => exact List.Perm.refl _
  | cons y ys ih =>
    by_cases h : sortKey y ≤ sortKey x
    · simp [insertDesc, h]
    · simp only [insertDesc, if_neg h]
      exact (ih.cons y).trans (List.Perm.swap x y ys)

theorem sortDesc_perm (l : List SearchHit) : (sortDesc l).Perm l := by
  induction l with
  | nil => exact List.Perm.refl _
  | cons x xs ih => exact (insertDesc_perm x (sortDesc xs)).trans (ih.cons x)

theorem pairwise_insertDesc (x : SearchHit) (l : List SearchHit)
    (h : l.Pairwise (fun a b => sortKey b ≤ sortKey a)) :
    (insertDesc x l).Pairwise (fun a b => sortKey b ≤ sortKey a) := by
  induction l with
  | nil => simp [insertDesc]
  | cons y ys ih =>
    by_cases hxy : sortKey y ≤ sortKey x
    · rw [insertDesc, if_pos hxy]
      refine h.cons ?_
      intro z hz
      rcases List.mem_cons.mp hz with rfl | hz
      · exact hxy
      · exact le_trans (List.rel_of_pairwise_cons h hz) hxy
    · rw [insertDesc, if_neg hxy]
      refine List.Pairwise.cons ?_ (ih h.of_cons)
      intro z hz
      rcases List.mem_cons.mp ((insertDesc_perm x ys).mem_iff.mp hz) with rfl | hz
      · exact le_of_lt (lt_of_not_le hxy)
      · exact List.rel_of_pairwise_cons h hz

theorem sortDesc_pairwise (l : List SearchHit) :
    (sortDesc l).Pairwise (fun a b => sortKey b ≤ sortKey a) := by
  induction l with
  | nil => simp [sortDesc]
  | cons x xs ih => exact pairwise_insertDesc x (sortDesc xs) ih

theorem filter_insertDesc_of_eq (x : SearchHit) (l : List SearchHit) (q : ℚ)
    (hx : sortKey x = q) :
    (insertDesc x l).filter (fun a => decide (sortKey a = q)) =
      x :: l.filter (fun a => decide (sortKey a = q)) := by
  induction l with
  | nil => simp [insertDesc, hx]
  | cons y ys ih =>
    by_cases hxy : sortKey y ≤ sortKey x
    · rw [insertDesc, if_pos hxy, List.filter_cons_of_pos (by simpa using hx)]
    · have hqy : ¬(sortKey y = q) := by
        intro hq
        exact hxy (by rw [hq, ← hx])
      rw [insertDesc, if_neg hxy,
        List.filter_cons_of_neg (by simpa using hqy), ih,
        List.filter_cons_of_neg (by simpa using hqy)]

theorem filter_insertDesc_of_ne (x : SearchHit) (l : List SearchHit) (q : ℚ)
    (hx : ¬(sortKey x = q)) :
    (insertDesc x l).filter (fun a => decide (sortKey a = q)) =
      l.filter (fun a => decide (sortKey a = q)) := by
  induction l with
  | nil => simp [insertDesc, hx]
  | cons y ys ih =>
    by_cases hxy : sortKey y ≤ sortKey x
    · simp only [insertDesc, if_pos hxy]
      rw [List.filter_cons_of_neg (by simpa using hx)]
    · simp only [insertDesc, if_neg hxy]
      by_cases hqy : sortKey y = q
      · rw [List.filter_cons_of_pos (by simpa using hqy), ih,
          List.filter_cons_of_pos (by simpa using hqy)]
      · rw [List.filter_cons_of_neg (by simpa using hqy), ih,
          List.filter_cons_of_neg (by simpa using hqy)]

theorem sortDesc_filter (l : List SearchHit) (q : ℚ) :
    (sortDesc l).filter (fun a => decide (sortKey a = q)) =
      l.filter (fun a => decide (sortKey a = q)) := by
  induction l with
  | nil => rfl
  | cons x xs ih =>
    by_cases hx : sortKey x = q
    · rw [sortDesc, filter_insertDesc_of_eq x (sortDesc xs) q hx, ih,
        List.filter_cons_of_pos (by simpa using hx)]
    · rw [sortDesc, filter_insertDesc_of_ne x (sortDesc xs) q hx, ih,
        List.filter_cons_of_neg (by simpa using hx)]

/-! ## The claims -/

/-- C4: vector search absorbs any backend error as zero results, and
sorts the results descending by score (missing/null score = 0) with a
stable sort, so ties keep arrival order; scores [0.8, None, 0.9] for
ids [1, 2, 3] sort to [3, 1, 2]. -/
theorem C4_search_absorbs_errors_and_stable_sorts_desc :
    (∀ e : String, search_similar_in_books_task (.error e) = []) ∧
    (∀ rs : List SearchHit,
      search_similar_in_books_task (.ok rs) = sortDesc rs ∧
      (search_similar_in_books_task (.ok rs)).Perm rs ∧
      (search_similar_in_books_task (.ok rs)).Pairwise
        (fun a b => sortKey b ≤ sortKey a) ∧
      (∀ q : ℚ,
        (search_similar_in_books_task (.ok rs)).filter (fun a => decide (sortKey a = q)) =
          rs.filter (fun a => decide (sortKey a = q)))) ∧
    search_similar_in_books_task
        (.ok [⟨1, some (8/10)⟩, ⟨2, none⟩, ⟨3, some (9/10)⟩]) =
      [⟨3, some (9/10)⟩, ⟨1, some (8/10)⟩, ⟨2, none⟩] := by
  refine ⟨fun e => rfl,
    fun rs => ⟨rfl, sortDesc_perm rs, sortDesc_pairwise rs, fun q => sortDesc_filter rs q⟩,
    by norm_num [search_similar_in_books_task, sortDesc, insertDesc, sortKey]⟩

/-- C1: deleting a sole-owner book removes the registry record
synchronously, but then the task crashes: line 203's undecorated
redefinition shadows the `delete_qdrant_chunks_task` Celery task object,
so `.delay` at line 293 raises AttributeError — no vector-purge and no
asset-purge job is ever dispatched and 'fully_deleted' is never
returned, contrary to the claim. -/
theorem C1_sole_owner_delete_crashes_before_any_dispatch :
    (delete_book_task wSolo "b1" "u1").1 = .error .attributeError ∧
    find_one (delete_book_task wSolo "b1" "u1").2.1.books (.byAppId "b1") = none ∧
    (delete_book_task wSolo "b1" "u1").2.2.count (.dispatchVectorPurge "b1") = 0 ∧
    (delete_book_task wSolo "b1" "u1").2.2.count (.dispatchAssetPurge "b1") = 0 ∧
    (delete_book_task wSolo "b1" "u1").2.2 =
      [.mongoFindOne (.byAppId "b1"), .mongoFindOne (.byAppId "b1"),
       .mongoDeleteOne (.byAppId "b1")] := by
  decide

/-- C8: deleting a book with uploaded_by = [u1, u2] as u1 does not
return 'user_removed_only': the source passes the filter document in the
update position (tasks.py lines 280-284), so the driver raises ValueError
and the task fails; the registry is unchanged (u1 is still an uploader)
and no purge job is dispatched. -/
theorem C8_shared_book_delete_raises_driver_error :
    (delete_book_task wShared "b1" "u1").1 = .error (.db .updateNeedsOperators) ∧
    (delete_book_task wShared "b1" "u1").2.1 = wShared ∧
    find_one (delete_book_task wShared "b1" "u1").2.1.books (.byAppId "b1") = some bookShared ∧
    (delete_book_task wShared "b1" "u1").2.2 =
      [.mongoFindOne (.byAppId "b1"), .mongoFindOne (.byAppId "b1")] := by
  decide

/-- C2: ingesting a document whose title matches a stored book as a NEW
uploader does not return 'existing': the source passes the filter
document in the update position (tasks.py lines 79-83), so the driver
raises ValueError; the requester is never added to uploaded_by. -/
theorem C2_existing_title_new_uploader_raises_driver_error :
    (process_pdf_task wIntro "doc.pdf" "u2").1 = .error (.db .updateNeedsOperators) ∧
    (find_one (process_pdf_task wIntro "doc.pdf" "u2").2.1.books (.byTitle "Intro")).map
      Book.uploaded_by = some ["u1"] := by
  decide

/-- C7: the pipeline computes selection_contexts = contexts[:10]
(tasks.py line 391) but then passes the FULL candidate list to the
selection stage (line 392): with 11 candidates, the selection stage is
given all 11, not at most the first 10. -/
theorem C7_selection_stage_receives_full_candidate_list :
    run11.selection_input = cs11 ∧
    run11.selection_input.length = 11 ∧
    ¬(run11.selection_input.length ≤ 10) ∧
    run11.selection_contexts_var = cs11.take 10 ∧
    run11.selection_input ≠ run11.selection_contexts_var := by
  decide

/-- C5 counterexample: when the generation collaborator returns valid
JSON lacking the selected_ids key, the selection is the empty list
(`dict.get` supplies the default [] and no exception reaches the
fallback), not the first 3 candidates as the claim states. -/
theorem C5_cex_missing_key_returns_empty_not_first3 :
    select_top_contexts_task cs4 (.ok (.ok (.jobj objMissingKey))) = [] ∧
    select_top_contexts_task cs4 (.ok (.ok (.jobj objMissingKey))) ≠ fallback_first3 cs4 ∧
    fallback_first3 cs4 = [.jstr "a", .jstr "b", .jstr "c"] := by
  decide

/-- C6 counterexample: a per-item extraction failure is NOT caught at
the executor boundary: with two leaves where only the first item's
extraction raises, the whole stage raises (executor.map re-raises the
worker's exception), even though the second item succeeds in
isolation. -/
theorem C6_cex_extraction_failure_aborts_stage :
    extraction_stage leavesTwo 9 extractFail0 saveOk = .error "malformed page" ∧
    process_node leavesTwo 9 extractFail0 saveOk 1 =
      .ok (some ⟨"B", "B", 5, 9, "p", "f", "body"⟩) := by
  decide

/-- C9 counterexample: with an empty outline, the task raises the
no-outline error, but only after the vector-store collection ensure
step: when the collection is absent it has been created by the time the
error is raised — a vector-store write occurred before the abort. -/
theorem C9_cex_collection_created_before_no_outline_error :
    (process_pdf_task wNoToc "b.pdf" "u1").1 = .error .noOutline ∧
    Eff.qdrantCreateCollection "pdf_chunks" ∈ (process_pdf_task wNoToc "b.pdf" "u1").2.2 ∧
    (process_pdf_task wNoToc "b.pdf" "u1").2.1.collections = ["pdf_chunks"] := by
  decide

/-- C10: calling the ingestion task with a pdf_path that does not exist
raises FileNotFoundError before touching any backing store: the state is
unchanged and the effect trace is empty — no vector-store collection is
created or read and no registry record is read, inserted, or updated.
(The check at tasks.py line 24 runs first, so the initialized-clients
precondition is required for FileNotFoundError rather than
EnvironmentError.) -/
theorem C10_missing_file_aborts_before_any_store_access
    (w : World) (pdf_path user_id : String)
    (hclients : w.clientsInit = true)
    (hmissing : w.fs.find? (fun p => p.1 == pdf_path) = none) :
    process_pdf_task w pdf_path user_id = (.error (.fileNotFound pdf_path), w, []) := by
  unfold process_pdf_task
  rw [hclients, hmissing]
  rfl

theorem C10_missing_file_aborts_before_any_store_access_w :
    process_pdf_task ⟨true, [], ["pdf_chunks"], [bookSolo], 3⟩ "x.pdf" "u" =
      (.error (.fileNotFound "x.pdf"), ⟨true, [], ["pdf_chunks"], [bookSolo], 3⟩, []) :=
  C10_missing_file_aborts_before_any_store_access
    ⟨true, [], ["pdf_chunks"], [bookSolo], 3⟩ "x.pdf" "u" rfl rfl

/-- C9 amended: ingesting a document whose parsed outline is empty fails
with the no-outline error (a ValueError in the source), with no registry
read or write and no purge-job dispatch; however the vector-store
collection ensure step has already run, so the only store mutation that
may have occurred is creating the 'pdf_chunks' collection when it was
absent. -/
theorem C9_empty_outline_fails_after_collection_ensure
    (w : World) (pdf_path user_id p : String) (doc : ParsedDoc)
    (hclients : w.clientsInit = true)
    (hfound : w.fs.find? (fun q => q.1 == pdf_path) = some (p, doc))
    (htoc : doc.toc = []) :
    (process_pdf_task w pdf_path user_id).1 = .error .noOutline ∧
    (process_pdf_task w pdf_path user_id).2.1.books = w.books ∧
    (process_pdf_task w pdf_path user_id).2.1.collections =
      (if "pdf_chunks" ∈ w.collections then w.collections
       else w.collections ++ ["pdf_chunks"]) ∧
    (process_pdf_task w pdf_path user_id).2.2 =
      [.qdrantGetCollections, .qdrantGetCollections] ++
      (if "pdf_chunks" ∈ w.collections then []
       else [.qdrantCreateCollection "pdf_chunks"]) := by
  unfold process_pdf_task
  rw [hclients, hfound]
  by_cases hc : "pdf_chunks" ∈ w.collections <;>
    simp [hc, htoc]

theorem C9_empty_outline_fails_after_collection_ensure_w :
    (process_pdf_task wNoToc "b.pdf" "u1").2.1.books = wNoToc.books ∧
    (process_pdf_task wNoToc "b.pdf" "u1").2.2 =
      [.qdrantGetCollections, .qdrantGetCollections] ++
      [.qdrantCreateCollection "pdf_chunks"] := by
  have h := C9_empty_outline_fails_after_collection_ensure wNoToc "b.pdf" "u1"
    "b.pdf" docNoToc rfl rfl rfl
  refine ⟨h.2.1, ?_⟩
  have h4 := h.2.2.2
  simpa using h4

/-- C5 amended: when the generation call fails or its reply is malformed
JSON, context selection returns the identifiers of the first 3 supplied
candidates in input order and no error propagates; but when the reply is
a well-formed JSON object missing the selected_ids key, the selection is
the empty list (dict.get's default), not the first-3 fallback. -/
theorem C5_failure_falls_back_but_missing_key_yields_empty
    (contexts : List Ctx) (e1 e2 : String) (fields : JObj) :
    select_top_contexts_task contexts (.error e1) = fallback_first3 contexts ∧
    select_top_contexts_task contexts (.ok (.error e2)) = fallback_first3 contexts ∧
    fallback_first3 contexts = (contexts.take 3).map (fun c => c.id.getD .null) ∧
    (jobjGet fields "selected_ids" = none →
      select_top_contexts_task contexts (.ok (.ok (.jobj fields))) = []) := by
  refine ⟨rfl, rfl, rfl, fun h => ?_⟩
  simp [select_top_contexts_task, h]

theorem C5_failure_falls_back_but_missing_key_yields_empty_w :
    select_top_contexts_task cs4 (.error "boom") = fallback_first3 cs4 ∧
    select_top_contexts_task cs4 (.ok (.ok (.jobj objMissingKey))) = [] :=
  ⟨(C5_failure_falls_back_but_missing_key_yields_empty cs4 "boom" "x" objMissingKey).1,
   (C5_failure_falls_back_but_missing_key_yields_empty cs4 "boom" "x"
      objMissingKey).2.2.2 rfl⟩

/-- When every item up to an index succeeds, `executorMap` collects the
non-null results in order. -/
theorem executorMap_all_ok (f : Nat → Except String (Option Chunk))
    (g : Nat → Option Chunk) (l : List Nat)
    (h : ∀ i ∈ l, f i = .ok (g i)) :
    executorMap f l = .ok (l.filterMap g) := by
  induction l with
  | nil => rfl
  | cons i is ih =>
    have hi := h i (List.mem_cons_self i is)
    have hrest := ih (fun j hj => h j (List.mem_cons_of_mem i hj))
    rw [executorMap, hi]
    cases hg : g i with
    | none => simp [hrest, List.filterMap_cons, hg]
    | some c => simp [hrest, List.filterMap_cons, hg, Except.map]

/-- The first failing item's exception propagates out of `executorMap`,
aborting the stage. -/
theorem executorMap_first_error (f : Nat → Except String (Option Chunk))
    (pre post : List Nat) (k : Nat) (e : String)
    (hpre : ∀ i ∈ pre, ∃ c, f i = .ok c)
    (hk : f k = .error e) :
    executorMap f (pre ++ k :: post) = .error e := by
  induction pre with
  | nil => simp [executorMap, hk]
  | cons i is ih =>
    obtain ⟨c, hc⟩ := hpre i (List.mem_cons_self i is)
    have hrest := ih (fun j hj => hpre j (List.mem_cons_of_mem i hj))
    rw [List.cons_append, executorMap, hc]
    cases c with
    | none => exact hrest
    | some c => simp [hrest, Except.map]

/-- C6 amended: a per-item extraction failure is not caught: the first
failing item's exception propagates out of the fan-out loop and fails the
job (later slots are discarded); only items that succeed with empty text
are nulled out and dropped while processing continues — when every item
succeeds, the stage returns exactly the non-null results in index
order. -/
theorem C6_extraction_error_propagates_empty_slots_drop
    (f : Nat → Except String (Option Chunk)) (g : Nat → Option Chunk)
    (pre post : List Nat) (k : Nat) (e : String) :
    ((∀ i ∈ pre, ∃ c, f i = .ok c) → f k = .error e →
      executorMap f (pre ++ k :: post) = .error e) ∧
    ((∀ i ∈ pre, f i = .ok (g i)) → executorMap f pre = .ok (pre.filterMap g)) :=
  ⟨fun hpre hk => executorMap_first_error f pre post k e hpre hk,
   fun h => executorMap_all_ok f g pre h⟩

theorem C6_extraction_error_propagates_empty_slots_drop_w :
    executorMap fFailW ([0, 1] ++ 2 :: [3]) = .error "io" ∧
    executorMap fFailW [0, 1] = .ok ([0, 1].filterMap gW) :=
  ⟨(C6_extraction_error_propagates_empty_slots_drop fFailW gW [0, 1] [3] 2 "io").1
      (by intro i hi; fin_cases hi <;> exact ⟨_, rfl⟩) rfl,
   (C6_extraction_error_propagates_empty_slots_drop fFailW gW [0, 1] [3] 2 "io").2
      (by intro i hi; fin_cases hi <;> rfl)⟩

/-- Reading `end_page_exclusive` when a next leaf exists. -/
theorem end_page_exclusive_eq_next (leaves : List LeafNode) (T i : Nat)
    (b : LeafNode) (h : leaves.get? (i + 1) = some b) :
    end_page_exclusive leaves T i = b.page := by
  unfold end_page_exclusive
  rw [h]

/-- Reading `end_page_exclusive` at the last leaf. -/
theorem end_page_exclusive_eq_last (leaves : List LeafNode) (T i : Nat)
    (h : leaves.get? (i + 1) = none) :
    end_page_exclusive leaves T i = T + 1 := by
  unfold end_page_exclusive
  rw [h]

/-- Chained page monotonicity extends over any distance. -/
theorem leaf_pages_mono (leaves : List LeafNode)
    (hchain : ∀ i a b, leaves.get? i = some a → leaves.get? (i + 1) = some b →
      a.page ≤ b.page) :
    ∀ d i a b, leaves.get? i = some a → leaves.get? (i + d) = some b →
      a.page ≤ b.page := by
  intro d
  induction d with
  | zero =>
    intro i a b ha hb
    rw [Nat.add_zero, ha] at hb
    exact le_of_eq (congrArg LeafNode.page (Option.some.inj hb))
  | succ d ih =>
    intro i a b ha hb
    have hlen : i + d < leaves.length := by
      obtain ⟨hlt, -⟩ := List.get?_eq_some.mp hb
      omega
    obtain ⟨m, hm⟩ : ∃ m, leaves.get? (i + d) = some m :=
      ⟨leaves.get ⟨i + d, hlen⟩, List.get?_eq_get hlen⟩
    exact le_trans (ih i a m ha hm) (hchain (i + d) m b hm hb)

/-- Page monotonicity between any two indices. -/
theorem leaf_pages_mono_le (leaves : List LeafNode)
    (hchain : ∀ i a b, leaves.get? i = some a → leaves.get? (i + 1) = some b →
      a.page ≤ b.page)
    (i j : Nat) (a b : LeafNode) (hij : i ≤ j)
    (ha : leaves.get? i = some a) (hb : leaves.get? j = some b) :
    a.page ≤ b.page := by
  obtain ⟨d, rfl⟩ := Nat.exists_eq_add_of_le hij
  exact leaf_pages_mono leaves hchain d i a b ha hb

/-- Two distinct leaves' ranges cannot share a page (ordered case). -/
theorem leaf_ranges_disjoint_lt (leaves : List LeafNode) (T : Nat)
    (hchain : ∀ i a b, leaves.get? i = some a → leaves.get? (i + 1) = some b →
      a.page ≤ b.page)
    (i j : Nat) (a b : LeafNode) (hij : i < j)
    (ha : leaves.get? i = some a) (hb : leaves.get? j = some b)
    (p : Nat) (h2 : p < end_page_exclusive leaves T i) (h3 : b.page ≤ p) :
    False := by
  have hjlen : j < leaves.length := by
    obtain ⟨hlt, -⟩ := List.get?_eq_some.mp hb
    omega
  have hi1 : i + 1 < leaves.length := by omega
  obtain ⟨m, hm⟩ : ∃ m, leaves.get? (i + 1) = some m :=
    ⟨leaves.get ⟨i + 1, hi1⟩, List.get?_eq_get hi1⟩
  have he : end_page_exclusive leaves T i = m.page :=
    end_page_exclusive_eq_next leaves T i m hm
  have hmb : m.page ≤ b.page :=
    leaf_pages_mono_le leaves hchain (i + 1) j m b (by omega) hm hb
  omega

/-- C3: for an outline whose leaves appear with non-decreasing start
pages all within the document, the assigned [start, end_page_exclusive)
ranges chain (each leaf's end is the next leaf's start, the last leaf's
end is total_pages + 1), are pairwise disjoint, and cover exactly the
pages from the first leaf's start page through total_pages. -/
theorem C3_leaf_ranges_partition (leaves : List LeafNode) (T : Nat)
    (hne : leaves ≠ [])
    (hchain : ∀ i a b, leaves.get? i = some a → leaves.get? (i + 1) = some b →
      a.page ≤ b.page)
    (hbound : ∀ i a, leaves.get? i = some a → a.page ≤ T) :
    (∀ i b, leaves.get? (i + 1) = some b →
      end_page_exclusive leaves T i = b.page) ∧
    end_page_exclusive leaves T (leaves.length - 1) = T + 1 ∧
    (∀ i j a b, leaves.get? i = some a → leaves.get? j = some b → i ≠ j →
      ∀ p, ¬(a.page ≤ p ∧ p < end_page_exclusive leaves T i ∧
             b.page ≤ p ∧ p < end_page_exclusive leaves T j)) ∧
    (∀ p, (∃ i a, leaves.get? i = some a ∧ a.page ≤ p ∧
            p < end_page_exclusive leaves T i) ↔
          (∃ a0, leaves.get? 0 = some a0 ∧ a0.page ≤ p ∧ p ≤ T)) := by
  have hNpos : 0 < leaves.length := List.length_pos.mpr hne
  refine ⟨?_, ?_, ?_, ?_⟩
  · intro i b hb
    exact end_page_exclusive_eq_next leaves T i b hb
  · refine end_page_exclusive_eq_last leaves T _ ?_
    rw [List.get?_eq_none]
    omega
  · intro i j a b ha hb hij p hcon
    obtain ⟨h1, h2, h3, h4⟩ := hcon
    rcases Nat.lt_or_ge i j with hlt | hge
    · exact leaf_ranges_disjoint_lt leaves T hchain i j a b hlt ha hb p h2 h3
    · have hlt : j < i := by omega
      exact leaf_ranges_disjoint_lt leaves T hchain j i b a hlt hb ha p h4 h1
  · intro p
    constructor
    · rintro ⟨i, a, ha, hap, hpe⟩
      obtain ⟨a0, h0⟩ : ∃ a0, leaves.get? 0 = some a0 :=
        ⟨leaves.get ⟨0, hNpos⟩, List.get?_eq_get hNpos⟩
      refine ⟨a0, h0, ?_, ?_⟩
      · exact le_trans
          (leaf_pages_mono_le leaves hchain 0 i a0 a (Nat.zero_le i) h0 ha) hap
      · rcases hnext : leaves.get? (i + 1) with _ | b
        · rw [end_page_exclusive_eq_last leaves T i hnext] at hpe
          omega
        · rw [end_page_exclusive_eq_next leaves T i b hnext] at hpe
          have := hbound (i + 1) b hnext
          omega
    · rintro ⟨a0, h0, h0p, hpT⟩
      classical
      set s : Nat → Nat := fun i => ((leaves.get? i).map LeafNode.page).getD (T + 1)
        with hs
      set P : Nat → Prop := fun i => s i ≤ p with hPdef
      have hP0 : P 0 := by
        simp only [hPdef, hs, h0, Option.map_some', Option.getD_some]
        exact h0p
      set k := Nat.findGreatest P (leaves.length - 1) with hk
      have hPk : P k := Nat.findGreatest_spec (Nat.zero_le _) hP0
      have hkle : k ≤ leaves.length - 1 := Nat.findGreatest_le _
      have hklen : k < leaves.length := by omega
      obtain ⟨ak, hak⟩ : ∃ ak, leaves.get? k = some ak :=
        ⟨leaves.get ⟨k, hklen⟩, List.get?_eq_get hklen⟩
      have hakp : ak.page ≤ p := by
        simpa only [hPdef, hs, hak, Option.map_some', Option.getD_some] using hPk
      refine ⟨k, ak, hak, hakp, ?_⟩
      rcases hnext : leaves.get? (k + 1) with _ | b
      · rw [end_page_exclusive_eq_last leaves T k hnext]
        omega
      · rw [end_page_exclusive_eq_next leaves T k b hnext]
        have hk1len : k + 1 < leaves.length := by
          obtain ⟨hlt, -⟩ := List.get?_eq_some.mp hnext
          omega
        have hnot : ¬P (k + 1) :=
          Nat.findGreatest_is_greatest (Nat.lt_succ_self k) (by omega)
        simp only [hPdef, hs, hnext, Option.map_some', Option.getD_some] at hnot
        omega

theorem C3_leaf_ranges_partition_w :
    end_page_exclusive leavesTwo 8 0 = 5 ∧
    end_page_exclusive leavesTwo 8 (leavesTwo.length - 1) = 8 + 1 := by
  have hchain : ∀ i a b, leavesTwo.get? i = some a →
      leavesTwo.get? (i + 1) = some b → a.page ≤ b.page := by
    intro i a b ha hb
    match i with
    | 0 =>
      simp only [leavesTwo, List.get?] at ha hb
      cases ha
      cases hb
      decide
    | 1 => simp [leavesTwo, List.get?] at hb
    | n + 2 => simp [leavesTwo, List.get?] at ha
  have hbound : ∀ i a, leavesTwo.get? i = some a → a.page ≤ 8 := by
    intro i a ha
    match i with
    | 0 =>
      simp only [leavesTwo, List.get?] at ha
      cases ha
      decide
    | 1 =>
      simp only [leavesTwo, List.get?] at ha
      cases ha
      decide
    | n + 2 => simp [leavesTwo, List.get?] at ha
  have h := C3_leaf_ranges_partition leavesTwo 8 (by decide) hchain hbound
  exact ⟨h.1 0 ⟨"B", ["B"], 5⟩ rfl, h.2.1⟩

end Fastcite
